import Mathlib

/-!
Verification of the GitBridge mutation-serialization core
(`src/core/gitbridge.py`) against its natural-language specification.

The Python source is shallowly embedded: pure string/path logic becomes
Lean functions over `String` / `List Char` / `List String`; the effectful
git subprocess calls and the file lock become explicit environments that
record, for each external command, whether it succeeded, failed with a
nonzero exit (`CalledProcessError`) or timed out (`TimeoutExpired`);
filesystem state becomes association lists from path strings to contents.
-/

namespace GitBridge

/-! ### Basic string helpers (substring search on character lists)

Python's `pattern in path_str` test is a substring containment check; we
model strings by their character lists and define containment directly. -/

/-- `isPrefixOfList n h` is true when the list `n` is an initial segment of `h`. -/
def isPrefixOfList : List Char → List Char → Bool
  | [], _ => true
  | _ :: _, [] => false
  | a :: as, b :: bs => decide (a = b) && isPrefixOfList as bs

/-- `occursIn n h` is true when `n` occurs contiguously inside `h`
(Python's `n in h` on strings). -/
def occursIn (n : List Char) : List Char → Bool
  | [] => n.isEmpty
  | c :: t => isPrefixOfList n (c :: t) || occursIn n t

/-! ### Path validator (`validate_path`, gitbridge.py lines 72-86)

The source checks, in order: non-empty; none of the dangerous patterns
`('..', '~', '$', '`', '|', ';', '&', '\x00')` occurs as a substring;
not absolute (leading `/` or a drive designator `X:`); and finally that
`(LOCAL_FOLDER / path_str).resolve()` is `relative_to` the resolved
repository root.  Path resolution is modelled purely (no symlinks): an
absolute path is its list of segments, and `resolve` normalises `""`,
`"."` and `".."` segments left to right. -/

/-- The dangerous substring patterns of the source, in source order. -/
def dangerousPatterns : List (List Char) :=
  [['.', '.'], ['~'], ['$'], ['\x60'], ['|'], [';'], ['&'], ['\x00']]

/-- Leading `/` test (`path_str.startswith('/')`). -/
def startsWithSlash (cs : List Char) : Bool :=
  match cs with
  | '/' :: _ => true
  | _ => false

/-- Drive designator test (`len(path_str) > 1 and path_str[1] == ':'`). -/
def hasDriveDesignator (cs : List Char) : Bool :=
  match cs with
  | _ :: ':' :: _ => true
  | _ => false

/-- Split a path string at `/` characters into raw segments. -/
def splitOnSlash : List Char → List Char → List String
  | cur, [] => [String.mk cur.reverse]
  | cur, '/' :: t => String.mk cur.reverse :: splitOnSlash [] t
  | cur, c :: t => splitOnSlash (c :: cur) t

/-- Raw segments of a path string. -/
def splitSegs (s : String) : List String := splitOnSlash [] s.toList

/-- One step of pure path resolution: empty and `.` segments vanish,
`..` pops the last segment, anything else is appended. -/
def resolveStep (acc : List String) (seg : String) : List String :=
  if seg = "" ∨ seg = "." then acc
  else if seg = ".." then acc.dropLast
  else acc ++ [seg]

/-- Pure resolution of a segment list into a normalised absolute path
(the symlink-free meaning of `Path.resolve()`). -/
def resolveSegs (segs : List String) : List String := segs.foldl resolveStep []

/-- `isPrefixSegs r p` is true when segment list `r` is an initial segment of
`p`; this is exactly when `Path(p).relative_to(Path(r))` succeeds for
normalised absolute paths. -/
def isPrefixSegs : List String → List String → Bool
  | [], _ => true
  | _ :: _, [] => false
  | a :: as, b :: bs => decide (a = b) && isPrefixSegs as bs

/-- A segment list is normal when it is free of empty, `.` and `..`
segments — the form `LOCAL_FOLDER.resolve()` always has. -/
def NormalSegs (r : List String) : Prop :=
  ∀ s ∈ r, ¬(s = "" ∨ s = "." ∨ s = "..")

instance (r : List String) : Decidable (NormalSegs r) := by
  unfold NormalSegs; infer_instance

/-- Embedding of `validate_path` (gitbridge.py lines 72-86).  `rootRes` is
the resolved segment list of `LOCAL_FOLDER`; on success the canonical
resolved path is returned as a segment list. -/
def validate_path (rootRes : List String) (path_str : String) :
    Except String (List String) :=
  if path_str.toList.isEmpty then
    .error "Path cannot be empty"
  else if dangerousPatterns.any (fun p => occursIn p path_str.toList) then
    .error "Path contains dangerous pattern"
  else if startsWithSlash path_str.toList || hasDriveDesignator path_str.toList then
    .error "Absolute paths not allowed"
  else if isPrefixSegs rootRes (resolveSegs (rootRes ++ splitSegs path_str)) then
    .ok (resolveSegs (rootRes ++ splitSegs path_str))
  else
    .error "Path outside repository boundaries"

deriving instance DecidableEq for Except

/-- `isErr e` is true when `e` carries an error (a raised `ValueError`,
i.e. the spec's `InvalidPath` class). -/
def isErr {ε α : Type} : Except ε α → Bool
  | .error _ => true
  | .ok _ => false

example : isErr (validate_path ["repo"] "../../etc/passwd") = true := by decide
example : isErr (validate_path ["repo"] "/etc/passwd") = true := by decide
example : isErr (validate_path ["repo"] "a;rm -rf /") = true := by decide
example : validate_path ["repo"] "demo/example.txt" =
    .ok ["repo", "demo", "example.txt"] := by decide

/-! ### Repository synchronizer (`git_lock`, `safe_git_operation`,
`commit_push_safe`, gitbridge.py lines 91-155)

Each git subprocess invocation either succeeds, raises
`subprocess.CalledProcessError` (nonzero exit, re-raised by
`safe_git_operation`) or raises `subprocess.TimeoutExpired` (also
re-raised).  An `AttemptEnv` records the outcome each command would have
in one attempt of the retry loop, plus whether `git status --porcelain`
printed nothing.  Running an attempt produces a trace recording the
returned value or escaping exception, the lock movements performed by the
`git_lock` context manager, whether a commit was made, whether `git push`
was executed, and which files `git add .` staged. -/

/-- Outcome of one `subprocess.run` git command. -/
inductive OpResult
  | ok
  | cpe
  | timeout
  deriving DecidableEq

/-- The git commands issued by one attempt of `commit_push_safe`. -/
inductive Step
  | status
  | add
  | commit
  | pull
  | push
  deriving DecidableEq

/-- Exceptions that can escape one attempt. -/
inductive GitError
  | lockTimeout
  | cmdFailed (s : Step)
  | cmdTimeout (s : Step)
  deriving DecidableEq

/-- What `commit_push_safe` (or one of its attempts) produces: a returned
boolean or an escaping exception. -/
inductive PubResult
  | ret (b : Bool)
  | exc (e : GitError)
  deriving DecidableEq

/-- Environment for one attempt: whether the file lock is acquired within
its timeout, and the outcome of each git command were it to run. -/
structure AttemptEnv where
  lockOk : Bool
  statusRes : OpResult
  statusEmpty : Bool
  addRes : OpResult
  commitRes : OpResult
  pullRes : OpResult
  pushRes : OpResult
  deriving DecidableEq

/-- `LOCK_PATH = LOCAL_FOLDER / ".git_lock"` (gitbridge.py line 91),
as a path relative to the repository root.  The `FileLock` backing file
exists inside the working copy whenever the lock is held. -/
def LOCK_PATH : String := ".git_lock"

/-- True when the relative path `f` lies inside the version-control
metadata directory, which `git add .` never stages. -/
def isUnderGitDir (f : String) : Bool :=
  f == ".git" || isPrefixOfList ".git/".toList f.toList

/-- The set of files staged by `git add .` run at the repository root:
every present file that is not under `.git/` and not matched by an
ignore rule.  (The source itself installs no ignore rule for the lock
artifact.) -/
def gitAddStages (present ignored : List String) : List String :=
  present.filter (fun f => !(decide (f ∈ ignored)) && !(isUnderGitDir f))

/-- Trace of the body of the `with git_lock():` block. -/
structure BodyTrace where
  result : PubResult
  committed : Bool
  pushAttempted : Bool
  staged : List String
  deriving DecidableEq

/-- The body of one attempt (gitbridge.py lines 135-147): status; early
`return True` when clean; `git add .`; `git commit`; `git pull --rebase`
whose `CalledProcessError` alone is caught and logged (a `TimeoutExpired`
escapes); `git push`; `return True`. -/
def attemptBody (env : AttemptEnv) (present ignored : List String) : BodyTrace :=
  match env.statusRes with
  | .cpe => ⟨.exc (.cmdFailed .status), false, false, []⟩
  | .timeout => ⟨.exc (.cmdTimeout .status), false, false, []⟩
  | .ok =>
    if env.statusEmpty then ⟨.ret true, false, false, []⟩
    else
      match env.addRes with
      | .cpe => ⟨.exc (.cmdFailed .add), false, false, []⟩
      | .timeout => ⟨.exc (.cmdTimeout .add), false, false, []⟩
      | .ok =>
        match env.commitRes with
        | .cpe => ⟨.exc (.cmdFailed .commit), false, false, gitAddStages present ignored⟩
        | .timeout => ⟨.exc (.cmdTimeout .commit), false, false, gitAddStages present ignored⟩
        | .ok =>
          match env.pullRes with
          | .timeout => ⟨.exc (.cmdTimeout .pull), true, false, gitAddStages present ignored⟩
          | _ =>
            match env.pushRes with
            | .cpe => ⟨.exc (.cmdFailed .push), true, true, gitAddStages present ignored⟩
            | .timeout => ⟨.exc (.cmdTimeout .push), true, true, gitAddStages present ignored⟩
            | .ok => ⟨.ret true, true, true, gitAddStages present ignored⟩

/-- Trace of one attempt, `git_lock` wrapper included. -/
structure AttemptTrace where
  result : PubResult
  lockAcquired : Bool
  lockReleased : Bool
  committed : Bool
  pushAttempted : Bool
  staged : List String
  deriving DecidableEq

/-- One attempt under the `git_lock` context manager (gitbridge.py lines
93-106): on acquisition failure the `Timeout` is turned into an exception
with the lock never held; otherwise the body runs with the lock file
present in the working copy, and the `finally` clause releases the lock
on every exit path before the result or exception leaves the block. -/
def runAttempt (env : AttemptEnv) (present ignored : List String) : AttemptTrace :=
  if env.lockOk then
    let b := attemptBody env (LOCK_PATH :: present) ignored
    ⟨b.result, true, true, b.committed, b.pushAttempted, b.staged⟩
  else
    ⟨.exc .lockTimeout, false, false, false, false, []⟩

/-- Trace of a whole `commit_push_safe` call: final result, the attempt
traces in order, and the `time.sleep` durations performed between
attempts. -/
structure RunTrace where
  result : PubResult
  attempts : List AttemptTrace
  sleeps : List Nat
  deriving DecidableEq

/-- The retry loop of `commit_push_safe` (gitbridge.py lines 131-155):
`for i in range(retries)`; a successful attempt returns its value; an
exception on the last iteration (`i == retries - 1`) is re-raised;
otherwise `time.sleep(2 ** i)` and the loop continues.  `fuel` counts the
iterations left; the unreachable fall-through returns `False` exactly as
the source's final `return False` does. -/
def retryGo (attempt : Nat → AttemptTrace) :
    Nat → Nat → List AttemptTrace → List Nat → RunTrace
  | _, 0, ts, ss => ⟨.ret false, ts, ss⟩
  | i, fuel + 1, ts, ss =>
    let t := attempt i
    match t.result with
    | .ret b => ⟨.ret b, ts ++ [t], ss⟩
    | .exc e =>
      if fuel = 0 then ⟨.exc e, ts ++ [t], ss⟩
      else retryGo attempt (i + 1) fuel (ts ++ [t]) (ss ++ [2 ^ i])

/-- Embedding of `commit_push_safe` with `retries = 3`. -/
def commit_push_safe (envs : Nat → AttemptEnv) (present ignored : List String) :
    RunTrace :=
  retryGo (fun i => runAttempt (envs i) present ignored) 0 3 [] []

/-- Environment of a fully successful attempt with pending changes. -/
def envAllOk : AttemptEnv := ⟨true, .ok, false, .ok, .ok, .ok, .ok⟩

/-- Environment of an attempt whose push fails with a nonzero exit. -/
def envPushFail : AttemptEnv := ⟨true, .ok, false, .ok, .ok, .ok, .cpe⟩

/-- Environment of an attempt that finds a clean working copy. -/
def envNoChanges : AttemptEnv := ⟨true, .ok, true, .ok, .ok, .ok, .ok⟩

/-- Environment of an attempt whose rebase pull times out. -/
def envPullTimeout : AttemptEnv := ⟨true, .ok, false, .ok, .ok, .timeout, .ok⟩

example : (commit_push_safe (fun _ => envNoChanges) [] []).attempts.length = 1 := by
  decide
example : LOCK_PATH ∈ (runAttempt envAllOk ["demo/example.txt"] []).staged := by
  decide

/-! ### State-coupled synchronizer model

`AttemptEnv` treats the emptiness of `git status --porcelain` as an
independent input per attempt; across a retry loop, however, that
emptiness is determined by what earlier attempts did to the repository: a
successful `git commit` cleans the working tree even when the subsequent
push fails, and a push failure does not undo the commit.  The following
refinement threads that git state through the retry loop, deriving each
attempt's status output from it, and reuses `runAttempt` unchanged for
the per-attempt control flow. -/

/-- Local repository state relevant to `commit_push_safe`: whether
`git status --porcelain` would print anything (uncommitted changes), and
whether local commits exist that were never pushed. -/
structure GitState where
  dirty : Bool
  ahead : Bool
  deriving DecidableEq

/-- External outcomes for one attempt: lock availability and the fate
each git command would have if run.  Unlike `AttemptEnv`, the emptiness
of the status output is not an input — it is derived from `GitState`. -/
structure StepEnv where
  lockOk : Bool
  statusRes : OpResult
  addRes : OpResult
  commitRes : OpResult
  pullRes : OpResult
  pushRes : OpResult
  deriving DecidableEq

/-- The decoupled environment induced by external outcomes and the
current git state: the status output is empty exactly when the working
tree is clean. -/
def toAttemptEnv (env : StepEnv) (s : GitState) : AttemptEnv :=
  ⟨env.lockOk, env.statusRes, !s.dirty, env.addRes, env.commitRes,
    env.pullRes, env.pushRes⟩

/-- Repository state after one attempt: a successful commit cleans the
tree and marks the branch ahead; a successful push clears the ahead flag;
every failure (and the clean-tree early return) leaves the state of the
step where the attempt stopped. -/
def stepState (env : StepEnv) (s : GitState) : GitState :=
  if env.lockOk then
    match env.statusRes with
    | .cpe => s
    | .timeout => s
    | .ok =>
      if !s.dirty then s
      else
        match env.addRes with
        | .cpe => s
        | .timeout => s
        | .ok =>
          match env.commitRes with
          | .cpe => s
          | .timeout => s
          | .ok =>
            match env.pullRes with
            | .timeout => ⟨false, true⟩
            | _ =>
              match env.pushRes with
              | .ok => ⟨false, false⟩
              | _ => ⟨false, true⟩
  else s

/-- One state-coupled attempt: the control-flow trace of `runAttempt` on
the induced environment, together with the repository state it leaves
behind. -/
structure AttemptTraceSt where
  trace : AttemptTrace
  stateAfter : GitState
  deriving DecidableEq

/-- Run one attempt from git state `s`. -/
def runAttemptSt (env : StepEnv) (present ignored : List String)
    (s : GitState) : AttemptTraceSt :=
  ⟨runAttempt (toAttemptEnv env s) present ignored, stepState env s⟩

/-- The `i`-th attempt of the state-coupled retry loop, each one starting
from the state the previous attempt left. -/
def stAttempt (envs : Nat → StepEnv) (p g : List String) (s : GitState) :
    Nat → AttemptTraceSt
  | 0 => runAttemptSt (envs 0) p g s
  | n + 1 => runAttemptSt (envs (n + 1)) p g (stAttempt envs p g s n).stateAfter

/-- Trace of a whole state-coupled `commit_push_safe` call. -/
structure RunTraceSt where
  result : PubResult
  attempts : List AttemptTrace
  sleeps : List Nat
  finalState : GitState
  deriving DecidableEq

/-- The retry loop of `commit_push_safe`, threading the repository state
from each attempt into the next. -/
def retryGoSt (envs : Nat → StepEnv) (p g : List String) :
    Nat → Nat → List AttemptTrace → List Nat → GitState → RunTraceSt
  | _, 0, ts, ss, s => ⟨.ret false, ts, ss, s⟩
  | i, fuel + 1, ts, ss, s =>
    let t := runAttemptSt (envs i) p g s
    match t.trace.result with
    | .ret b => ⟨.ret b, ts ++ [t.trace], ss, t.stateAfter⟩
    | .exc e =>
      if fuel = 0 then ⟨.exc e, ts ++ [t.trace], ss, t.stateAfter⟩
      else retryGoSt envs p g (i + 1) fuel (ts ++ [t.trace]) (ss ++ [2 ^ i])
        t.stateAfter

/-- State-coupled embedding of `commit_push_safe` with `retries = 3`. -/
def commit_push_safe_st (envs : Nat → StepEnv) (p g : List String)
    (s : GitState) : RunTraceSt :=
  retryGoSt envs p g 0 3 [] [] s

/-- Number of times `git push` was executed over the whole call. -/
def pushAttemptCountSt (r : RunTraceSt) : Nat :=
  (r.attempts.filter (fun t => t.pushAttempted)).length

/-- External outcomes under which a push, if attempted, fails with a
transient nonzero exit. -/
def stepEnvPushFail : StepEnv := ⟨true, .ok, .ok, .ok, .ok, .cpe⟩

/-- External outcomes under which every command, if run, succeeds. -/
def stepEnvAllOk : StepEnv := ⟨true, .ok, .ok, .ok, .ok, .ok⟩

/-- External outcomes under which the lock is never acquired in time. -/
def stepEnvLockBusy : StepEnv := ⟨false, .ok, .ok, .ok, .ok, .ok⟩

/-- The spec's retry-then-surface scenario as external outcomes: the push
would fail transiently on the first two attempts and succeed on the
third, were it tried. -/
def stEnvsPushRetry : Nat → StepEnv :=
  fun i => if i < 2 then stepEnvPushFail else stepEnvAllOk

example : (commit_push_safe_st stEnvsPushRetry [] [] ⟨true, false⟩).attempts.length
    = 2 := by decide
example : (commit_push_safe_st (fun _ => stepEnvAllOk) [] [] ⟨true, false⟩).finalState
    = ⟨false, false⟩ := by decide

/-! ### Mutation executor (`write_file_safe`, gitbridge.py lines 217-227)

The file table is an association list from path strings to contents;
directories created by `mkdir(parents=True, exist_ok=True)` are tracked
as a list of directory paths. -/

/-- Look a path up in a file table. -/
def fsGet (fs : List (String × String)) (p : String) : Option String :=
  match fs with
  | [] => none
  | (k, v) :: t => if k = p then some v else fsGet t p

/-- Remove a path from a file table (`Path.unlink`, or the source half of
a rename). -/
def fsDel (fs : List (String × String)) (p : String) : List (String × String) :=
  match fs with
  | [] => []
  | (k, v) :: t => if k = p then fsDel t p else (k, v) :: fsDel t p

/-- Bind a path to a content in a file table, overwriting any previous
binding. -/
def fsSet (fs : List (String × String)) (p c : String) : List (String × String) :=
  (p, c) :: fsDel fs p

/-- `path.with_suffix(path.suffix + '.tmp')`: replacing the suffix `s` of
the file name by `s + '.tmp'` appends `'.tmp'` to the path. -/
def withSuffixTmp (path : String) : String := path ++ ".tmp"

/-- Join segments back into a path string with `/` separators. -/
def joinSegs : List String → String
  | [] => ""
  | [s] => s
  | s :: t => s ++ "/" ++ joinSegs t

/-- The chain of parent directories `mkdir(parents=True)` creates for a
relative path: every proper prefix of its directory part. -/
def parentsOf (p : String) : List String :=
  (List.range (splitSegs p).dropLast.length).map
    (fun i => joinSegs ((splitSegs p).dropLast.take (i + 1)))

/-- Filesystem state: file table plus the set of existing directories. -/
structure FSState where
  files : List (String × String)
  dirs : List String
  deriving DecidableEq

/-- The two externally visible states of one `write_file_safe` call:
`mid` is the state after the temporary sibling has been written but
before the rename (the state an interruption would leave behind), and
`final` is the state after `tmp.rename(path)`. -/
structure WriteTrace where
  mid : FSState
  final : FSState
  deriving DecidableEq

/-- Embedding of `write_file_safe` (gitbridge.py lines 217-227): create
parent directories, write `content` to `path + '.tmp'`, then rename the
temporary file onto `path`. -/
def write_file_safe (st : FSState) (path content : String) : WriteTrace :=
  { mid := ⟨fsSet st.files (withSuffixTmp path) content, st.dirs ++ parentsOf path⟩,
    final := ⟨fsSet (fsDel (fsSet st.files (withSuffixTmp path) content)
                      (withSuffixTmp path)) path content,
              st.dirs ++ parentsOf path⟩ }

/-! ### The `/delete` route (gitbridge.py lines 265-278)

The route body, given a request that does carry a `path` field: refuse
with 403 when `SAFE_MODE` is set, before even validating; validate the
path (a `ValueError` becomes 400 through `handle_errors`); 404 when the
file does not exist; otherwise `unlink` and publish.  The filesystem is
the set of existing resolved absolute paths (segment lists). -/

/-- Result of a `/delete` request: HTTP status code, remaining files,
and whether `commit_push_safe` was invoked. -/
structure DeleteResult where
  code : Nat
  fs : List (List String)
  publishCalled : Bool
  deriving DecidableEq

/-- Embedding of the `/delete` route body for a request carrying `path`. -/
def delete (safeMode : Bool) (rootRes : List String) (fs : List (List String))
    (pathStr : String) : DeleteResult :=
  if safeMode then ⟨403, fs, false⟩
  else
    match validate_path rootRes pathStr with
    | .error _ => ⟨400, fs, false⟩
    | .ok fp =>
      if fp ∈ fs then ⟨200, fs.filter (fun q => q ≠ fp), true⟩
      else ⟨404, fs, false⟩

example :
    delete true ["repo"] [["repo", "demo", "example.txt"]] "demo/example.txt" =
      ⟨403, [["repo", "demo", "example.txt"]], false⟩ := by decide
example :
    (delete false ["repo"] [["repo", "demo", "example.txt"]] "demo/example.txt").code
      = 200 := by decide

/-! ### Repository bootstrapper (`ensure_repository`, gitbridge.py lines
160-184)

The `try` block runs: when the local folder is absent, the credential
helper write (an `OSError` candidate) and the `git clone` subprocess
(timeout 60, `check=True`); then always `git checkout -B main` and
`git pull origin main` through `safe_git_operation`.  The handlers catch
`OSError` and `subprocess.CalledProcessError` and return normally; a
`subprocess.TimeoutExpired` matches neither handler and propagates out of
the module-level `ensure_repository()` call. -/

/-- Outcome of one bootstrap step. -/
inductive BootRes
  | ok
  | cpe
  | timeout
  | oserr
  deriving DecidableEq, Fintype

/-- Exception classes distinguishable by the handlers of
`ensure_repository`. -/
inductive BootExc
  | osError
  | calledProcessError
  | timeoutExpired
  deriving DecidableEq

/-- The exception a step outcome raises, if any. -/
def excOf : BootRes → Option BootExc
  | .ok => none
  | .cpe => some .calledProcessError
  | .timeout => some .timeoutExpired
  | .oserr => some .osError

/-- Environment of one `ensure_repository` call. -/
structure BootEnv where
  folderExists : Bool
  helperWriteRes : BootRes
  cloneRes : BootRes
  checkoutRes : BootRes
  pullRes : BootRes
  deriving DecidableEq, Fintype

/-- First exception escaping the `try` block of `ensure_repository`,
if any; later steps do not run once one raises. -/
def bootTryBody (e : BootEnv) : Option BootExc :=
  match (if e.folderExists then none
         else match excOf e.helperWriteRes with
              | some x => some x
              | none => excOf e.cloneRes) with
  | some x => some x
  | none =>
    match excOf e.checkoutRes with
    | some x => some x
    | none => excOf e.pullRes

/-- How `ensure_repository` terminates: a normal return or a propagated
exception. -/
inductive BootOutcome
  | returned
  | raised (e : BootExc)
  deriving DecidableEq

/-- Embedding of `ensure_repository` (gitbridge.py lines 160-184): the
`except OSError` and `except subprocess.CalledProcessError` handlers log
and return; anything else propagates. -/
def ensure_repository (e : BootEnv) : BootOutcome :=
  match bootTryBody e with
  | none => .returned
  | some .osError => .returned
  | some .calledProcessError => .returned
  | some .timeoutExpired => .raised .timeoutExpired

example : ensure_repository ⟨true, .ok, .ok, .timeout, .ok⟩ =
    .raised .timeoutExpired := by decide
example : ensure_repository ⟨false, .ok, .cpe, .cpe, .oserr⟩ = .returned := by decide

/-! ## Helper lemmas -/

theorem isPrefixSegs_append (r l : List String) : isPrefixSegs r (r ++ l) = true := by
  induction r with
  | nil => rfl
  | cons a t ih => simp [isPrefixSegs, ih]

theorem foldl_resolveStep_of_normal (r : List String) (h : NormalSegs r) :
    ∀ acc, List.foldl resolveStep acc r = acc ++ r := by
  induction r with
  | nil => intro acc; simp
  | cons a t ih =>
    intro acc
    have ha := h a (List.mem_cons_self a t)
    have hstep : resolveStep acc a = acc ++ [a] := by
      unfold resolveStep
      rw [if_neg (fun hc => ha (by tauto)), if_neg (fun hc => ha (by tauto))]
    rw [List.foldl_cons, hstep,
      ih (fun s hs => h s (List.mem_cons_of_mem a hs)) (acc ++ [a])]
    simp

theorem validate_path_err_of_dangerous (r : List String) (s : String)
    (h : dangerousPatterns.any (fun p => occursIn p s.toList) = true) :
    validate_path r s = .error "Path contains dangerous pattern" := by
  have hne : ¬(s.toList.isEmpty = true) := by
    intro hemp
    rw [List.isEmpty_iff] at hemp
    rw [hemp] at h
    exact absurd h (by decide)
  unfold validate_path
  rw [if_neg hne, if_pos h]

theorem validate_path_err_of_abs (r : List String) (s : String)
    (hs : startsWithSlash s.toList = true ∨ hasDriveDesignator s.toList = true) :
    isErr (validate_path r s) = true := by
  by_cases h1 : s.toList.isEmpty = true
  · exfalso
    rw [List.isEmpty_iff] at h1
    rw [h1] at hs
    rcases hs with h | h <;> simp [startsWithSlash, hasDriveDesignator] at h
  · by_cases h2 : dangerousPatterns.any (fun p => occursIn p s.toList) = true
    · rw [validate_path_err_of_dangerous _ _ h2]; rfl
    · have h3 : (startsWithSlash s.toList || hasDriveDesignator s.toList) = true :=
        (Bool.or_eq_true _ _).mpr hs
      unfold validate_path
      rw [if_neg h1, if_neg h2, if_pos h3]
      rfl

theorem validate_path_demo (r : List String) (hroot : NormalSegs r) :
    validate_path r "demo/example.txt" = .ok (r ++ ["demo", "example.txt"]) := by
  unfold validate_path
  rw [if_neg (by decide), if_neg (by decide), if_neg (by decide)]
  have hsplit : splitSegs "demo/example.txt" = ["demo", "example.txt"] := by decide
  rw [hsplit]
  have hres : resolveSegs (r ++ ["demo", "example.txt"]) =
      r ++ ["demo", "example.txt"] := by
    unfold resolveSegs
    rw [List.foldl_append, foldl_resolveStep_of_normal r hroot [], List.nil_append,
      List.foldl_cons, List.foldl_cons, List.foldl_nil]
    show resolveStep (resolveStep r "demo") "example.txt" = _
    unfold resolveStep
    rw [if_neg (by decide), if_neg (by decide), if_neg (by decide), if_neg (by decide)]
    simp
  rw [hres, if_pos (isPrefixSegs_append r _)]

theorem occursIn_singleton (c : Char) (l : List Char) (h : c ∈ l) :
    occursIn [c] l = true := by
  induction l with
  | nil => cases h
  | cons a t ih =>
    rcases List.mem_cons.mp h with rfl | hm
    · simp [occursIn, isPrefixOfList]
    · simp [occursIn, ih hm]

/-! ## Claims -/

/-- C1: for every caller-supplied path string, `validate_path` fails with a
`ValueError` (the spec's `InvalidPath`) on `"../../etc/passwd"`,
`"/etc/passwd"` and `"a;rm -rf /"`, rejects the empty string and every
absolute path (leading slash or drive designator), and succeeds on
`"demo/example.txt"`, returning a canonical path equal to or a descendant
of the repository root's resolved absolute path. -/
theorem validate_path_spec (rootRes : List String) (hroot : NormalSegs rootRes) :
    isErr (validate_path rootRes "../../etc/passwd") = true ∧
    isErr (validate_path rootRes "/etc/passwd") = true ∧
    isErr (validate_path rootRes "a;rm -rf /") = true ∧
    isErr (validate_path rootRes "") = true ∧
    (∀ s : String,
      startsWithSlash s.toList = true ∨ hasDriveDesignator s.toList = true →
      isErr (validate_path rootRes s) = true) ∧
    validate_path rootRes "demo/example.txt" =
      .ok (rootRes ++ ["demo", "example.txt"]) ∧
    isPrefixSegs rootRes (rootRes ++ ["demo", "example.txt"]) = true := by
  refine ⟨?_, ?_, ?_, ?_, ?_, ?_, ?_⟩
  · rw [validate_path_err_of_dangerous _ _ (by decide)]; rfl
  · exact validate_path_err_of_abs _ _ (Or.inl (by decide))
  · rw [validate_path_err_of_dangerous _ _ (by decide)]; rfl
  · unfold validate_path
    rw [if_pos (by decide)]
    rfl
  · exact fun s hs => validate_path_err_of_abs _ s hs
  · exact validate_path_demo rootRes hroot
  · exact isPrefixSegs_append _ _

/-- Witness for C1 at the concrete root `["repo"]`. -/
theorem validate_path_spec_witness :
    NormalSegs ["repo"] ∧
    validate_path ["repo"] "demo/example.txt" =
      .ok ["repo", "demo", "example.txt"] ∧
    isErr (validate_path ["repo"] "../../etc/passwd") = true ∧
    isErr (validate_path ["repo"] "/abs/file") = true := by
  have h := validate_path_spec ["repo"] (by decide)
  exact ⟨by decide, h.2.2.2.2.2.1, h.1,
    h.2.2.2.2.1 "/abs/file" (Or.inl (by decide))⟩

/-- C10: `validate_path` rejects every path string in which `".."` occurs
anywhere as a substring — including inside a single filename such as
`"notes..txt"` — and likewise any path containing one of the characters
`'~'`, `'$'`, the backquote, `'|'`, `';'`, `'&'` or a null byte, at any
position. -/
theorem validate_path_substring_rejection (rootRes : List String) (s : String) :
    (occursIn ['.', '.'] s.toList = true → isErr (validate_path rootRes s) = true) ∧
    (∀ c ∈ (['~', '$', '\x60', '|', ';', '&', '\x00'] : List Char),
      c ∈ s.toList → isErr (validate_path rootRes s) = true) ∧
    isErr (validate_path rootRes "notes..txt") = true := by
  refine ⟨?_, ?_, ?_⟩
  · intro h
    have hany : dangerousPatterns.any (fun p => occursIn p s.toList) = true :=
      List.any_eq_true.mpr ⟨['.', '.'], by decide, h⟩
    rw [validate_path_err_of_dangerous _ _ hany]; rfl
  · intro c hc hm
    have hp : [c] ∈ dangerousPatterns := by fin_cases hc <;> decide
    have hany : dangerousPatterns.any (fun p => occursIn p s.toList) = true :=
      List.any_eq_true.mpr ⟨[c], hp, occursIn_singleton c _ hm⟩
    rw [validate_path_err_of_dangerous _ _ hany]; rfl
  · rw [validate_path_err_of_dangerous _ _ (by decide)]; rfl

/-- Witness for C10 at a concrete root and concrete inputs. -/
theorem validate_path_substring_rejection_witness :
    occursIn ['.', '.'] "notes..txt".toList = true ∧
    isErr (validate_path ["repo"] "notes..txt") = true ∧
    ('~' : Char) ∈ "a~b".toList ∧
    isErr (validate_path ["repo"] "a~b") = true := by
  have h1 := validate_path_substring_rejection ["repo"] "notes..txt"
  have h2 := validate_path_substring_rejection ["repo"] "a~b"
  exact ⟨by decide, h1.1 (by decide), by decide, h2.2.1 '~' (by decide) (by decide)⟩

/-! ## Unfolding lemmas for the retry loop -/

theorem retryGo_succ (A : Nat → AttemptTrace) (i fuel : Nat)
    (ts : List AttemptTrace) (ss : List Nat) :
    retryGo A i (fuel + 1) ts ss =
      match (A i).result with
      | .ret b => ⟨.ret b, ts ++ [A i], ss⟩
      | .exc e =>
        if fuel = 0 then ⟨.exc e, ts ++ [A i], ss⟩
        else retryGo A (i + 1) fuel (ts ++ [A i]) (ss ++ [2 ^ i]) := rfl

theorem retryGo_three (A : Nat → AttemptTrace) (i : Nat)
    (ts : List AttemptTrace) (ss : List Nat) :
    retryGo A i 3 ts ss =
      match (A i).result with
      | .ret b => ⟨.ret b, ts ++ [A i], ss⟩
      | .exc _ => retryGo A (i + 1) 2 (ts ++ [A i]) (ss ++ [2 ^ i]) := by
  show retryGo A i (2 + 1) ts ss = _
  rw [retryGo_succ]
  rcases h : (A i).result with b | e <;> simp [h]

theorem retryGo_two (A : Nat → AttemptTrace) (i : Nat)
    (ts : List AttemptTrace) (ss : List Nat) :
    retryGo A i 2 ts ss =
      match (A i).result with
      | .ret b => ⟨.ret b, ts ++ [A i], ss⟩
      | .exc _ => retryGo A (i + 1) 1 (ts ++ [A i]) (ss ++ [2 ^ i]) := by
  show retryGo A i (1 + 1) ts ss = _
  rw [retryGo_succ]
  rcases h : (A i).result with b | e <;> simp [h]

theorem retryGo_one (A : Nat → AttemptTrace) (i : Nat)
    (ts : List AttemptTrace) (ss : List Nat) :
    retryGo A i 1 ts ss =
      match (A i).result with
      | .ret b => ⟨.ret b, ts ++ [A i], ss⟩
      | .exc e => ⟨.exc e, ts ++ [A i], ss⟩ := by
  show retryGo A i (0 + 1) ts ss = _
  rw [retryGo_succ]
  rcases h : (A i).result with b | e <;> simp [h]

theorem runTrace_match_eta (r : PubResult) (L : List AttemptTrace) (S : List Nat) :
    (match r with
     | .ret b => (⟨.ret b, L, S⟩ : RunTrace)
     | .exc e => ⟨.exc e, L, S⟩) = ⟨r, L, S⟩ := by
  cases r <;> rfl

/-- Exhaustive description of a `commit_push_safe` run in terms of its
three possible attempts. -/
theorem commit_push_safe_cases (envs : Nat → AttemptEnv) (p g : List String) :
    (∃ b, (runAttempt (envs 0) p g).result = .ret b ∧
      commit_push_safe envs p g = ⟨.ret b, [runAttempt (envs 0) p g], []⟩) ∨
    (∃ e b, (runAttempt (envs 0) p g).result = .exc e ∧
      (runAttempt (envs 1) p g).result = .ret b ∧
      commit_push_safe envs p g =
        ⟨.ret b, [runAttempt (envs 0) p g, runAttempt (envs 1) p g], [1]⟩) ∨
    (∃ e0 e1, (runAttempt (envs 0) p g).result = .exc e0 ∧
      (runAttempt (envs 1) p g).result = .exc e1 ∧
      commit_push_safe envs p g =
        ⟨(runAttempt (envs 2) p g).result,
          [runAttempt (envs 0) p g, runAttempt (envs 1) p g,
            runAttempt (envs 2) p g], [1, 2]⟩) := by
  have hdef : commit_push_safe envs p g =
      retryGo (fun i => runAttempt (envs i) p g) 0 3 [] [] := rfl
  rcases h0 : (runAttempt (envs 0) p g).result with b0 | e0
  · left
    refine ⟨b0, rfl, ?_⟩
    rw [hdef, retryGo_three]
    simp [h0]
  · rcases h1 : (runAttempt (envs 1) p g).result with b1 | e1
    · right; left
      refine ⟨e0, b1, rfl, rfl, ?_⟩
      rw [hdef, retryGo_three]
      simp only [h0]
      rw [retryGo_two]
      simp [h1]
    · right; right
      refine ⟨e0, e1, rfl, rfl, ?_⟩
      rw [hdef, retryGo_three]
      simp only [h0]
      rw [retryGo_two]
      simp only [h1]
      rw [retryGo_one]
      simp [runTrace_match_eta]

/-! ## Claims about the synchronizer -/

/-- One attempt never ends with the lock acquired but not released: the
`finally` clause of `git_lock` releases it on every exit path. -/
theorem runAttempt_lock_balanced (env : AttemptEnv) (p g : List String) :
    (runAttempt env p g).lockAcquired = false ∨
      (runAttempt env p g).lockReleased = true := by
  unfold runAttempt
  by_cases h : env.lockOk = true
  · rw [if_pos h]; right; rfl
  · rw [if_neg h]; left; rfl

/-- A run trace leaks no lock: every attempt that acquired the lock also
released it before exiting. -/
def noLockLeaked (r : RunTrace) : Bool :=
  r.attempts.all (fun t => !(t.lockAcquired && !t.lockReleased))

/-- C2: on every outcome of `commit_push_safe` — success, no-changes,
integration failure, push failure, or lock-acquisition timeout — no exit
path of any attempt leaves the exclusive mutation lock held. -/
theorem lock_always_released (envs : Nat → AttemptEnv) (p g : List String) :
    noLockLeaked (commit_push_safe envs p g) = true := by
  rcases commit_push_safe_cases envs p g with ⟨b, h0, heq⟩ | ⟨e, b, h0, h1, heq⟩ |
    ⟨e0, e1, h0, h1, heq⟩
  · rw [heq]
    simp [noLockLeaked]
    exact runAttempt_lock_balanced _ _ _
  · rw [heq]
    simp [noLockLeaked]
    exact ⟨runAttempt_lock_balanced _ _ _, runAttempt_lock_balanced _ _ _⟩
  · rw [heq]
    simp [noLockLeaked]
    exact ⟨runAttempt_lock_balanced _ _ _, runAttempt_lock_balanced _ _ _,
      runAttempt_lock_balanced _ _ _⟩

/-! ## C5: the retry policy, over the state-coupled model -/

theorem retryGoSt_succ (envs : Nat → StepEnv) (p g : List String) (i fuel : Nat)
    (ts : List AttemptTrace) (ss : List Nat) (s : GitState) :
    retryGoSt envs p g i (fuel + 1) ts ss s =
      match (runAttemptSt (envs i) p g s).trace.result with
      | .ret b => ⟨.ret b, ts ++ [(runAttemptSt (envs i) p g s).trace], ss,
          (runAttemptSt (envs i) p g s).stateAfter⟩
      | .exc e =>
        if fuel = 0 then
          ⟨.exc e, ts ++ [(runAttemptSt (envs i) p g s).trace], ss,
            (runAttemptSt (envs i) p g s).stateAfter⟩
        else
          retryGoSt envs p g (i + 1) fuel
            (ts ++ [(runAttemptSt (envs i) p g s).trace]) (ss ++ [2 ^ i])
            (runAttemptSt (envs i) p g s).stateAfter := rfl

theorem retryGoSt_three (envs : Nat → StepEnv) (p g : List String) (i : Nat)
    (ts : List AttemptTrace) (ss : List Nat) (s : GitState) :
    retryGoSt envs p g i 3 ts ss s =
      match (runAttemptSt (envs i) p g s).trace.result with
      | .ret b => ⟨.ret b, ts ++ [(runAttemptSt (envs i) p g s).trace], ss,
          (runAttemptSt (envs i) p g s).stateAfter⟩
      | .exc _ =>
        retryGoSt envs p g (i + 1) 2
          (ts ++ [(runAttemptSt (envs i) p g s).trace]) (ss ++ [2 ^ i])
          (runAttemptSt (envs i) p g s).stateAfter := by
  show retryGoSt envs p g i (2 + 1) ts ss s = _
  rw [retryGoSt_succ]
  rcases h : (runAttemptSt (envs i) p g s).trace.result with b | e <;> simp [h]

theorem retryGoSt_two (envs : Nat → StepEnv) (p g : List String) (i : Nat)
    (ts : List AttemptTrace) (ss : List Nat) (s : GitState) :
    retryGoSt envs p g i 2 ts ss s =
      match (runAttemptSt (envs i) p g s).trace.result with
      | .ret b => ⟨.ret b, ts ++ [(runAttemptSt (envs i) p g s).trace], ss,
          (runAttemptSt (envs i) p g s).stateAfter⟩
      | .exc _ =>
        retryGoSt envs p g (i + 1) 1
          (ts ++ [(runAttemptSt (envs i) p g s).trace]) (ss ++ [2 ^ i])
          (runAttemptSt (envs i) p g s).stateAfter := by
  show retryGoSt envs p g i (1 + 1) ts ss s = _
  rw [retryGoSt_succ]
  rcases h : (runAttemptSt (envs i) p g s).trace.result with b | e <;> simp [h]

theorem retryGoSt_one (envs : Nat → StepEnv) (p g : List String) (i : Nat)
    (ts : List AttemptTrace) (ss : List Nat) (s : GitState) :
    retryGoSt envs p g i 1 ts ss s =
      match (runAttemptSt (envs i) p g s).trace.result with
      | .ret b => ⟨.ret b, ts ++ [(runAttemptSt (envs i) p g s).trace], ss,
          (runAttemptSt (envs i) p g s).stateAfter⟩
      | .exc e => ⟨.exc e, ts ++ [(runAttemptSt (envs i) p g s).trace], ss,
          (runAttemptSt (envs i) p g s).stateAfter⟩ := by
  show retryGoSt envs p g i (0 + 1) ts ss s = _
  rw [retryGoSt_succ]
  rcases h : (runAttemptSt (envs i) p g s).trace.result with b | e <;> simp [h]

theorem runTraceSt_match_eta (r : PubResult) (L : List AttemptTrace)
    (S : List Nat) (σ : GitState) :
    (match r with
     | .ret b => (⟨.ret b, L, S, σ⟩ : RunTraceSt)
     | .exc e => ⟨.exc e, L, S, σ⟩) = ⟨r, L, S, σ⟩ := by
  cases r <;> rfl

/-- Exhaustive description of a state-coupled `commit_push_safe` run in
terms of its threaded attempts `stAttempt`. -/
theorem commit_push_safe_st_cases (envs : Nat → StepEnv) (p g : List String)
    (s : GitState) :
    (∃ b, (stAttempt envs p g s 0).trace.result = .ret b ∧
      commit_push_safe_st envs p g s =
        ⟨.ret b, [(stAttempt envs p g s 0).trace], [],
          (stAttempt envs p g s 0).stateAfter⟩) ∨
    (∃ e b, (stAttempt envs p g s 0).trace.result = .exc e ∧
      (stAttempt envs p g s 1).trace.result = .ret b ∧
      commit_push_safe_st envs p g s =
        ⟨.ret b, [(stAttempt envs p g s 0).trace, (stAttempt envs p g s 1).trace],
          [1], (stAttempt envs p g s 1).stateAfter⟩) ∨
    (∃ e0 e1, (stAttempt envs p g s 0).trace.result = .exc e0 ∧
      (stAttempt envs p g s 1).trace.result = .exc e1 ∧
      commit_push_safe_st envs p g s =
        ⟨(stAttempt envs p g s 2).trace.result,
          [(stAttempt envs p g s 0).trace, (stAttempt envs p g s 1).trace,
            (stAttempt envs p g s 2).trace],
          [1, 2], (stAttempt envs p g s 2).stateAfter⟩) := by
  have hdef : commit_push_safe_st envs p g s = retryGoSt envs p g 0 3 [] [] s := rfl
  rcases h0 : (stAttempt envs p g s 0).trace.result with b0 | e0
  · left
    refine ⟨b0, rfl, ?_⟩
    have h0' : (runAttemptSt (envs 0) p g s).trace.result = .ret b0 := h0
    rw [hdef, retryGoSt_three]
    simp only [h0']
    rfl
  · have h0' : (runAttemptSt (envs 0) p g s).trace.result = .exc e0 := h0
    rcases h1 : (stAttempt envs p g s 1).trace.result with b1 | e1
    · right; left
      refine ⟨e0, b1, rfl, rfl, ?_⟩
      have h1' : (runAttemptSt (envs 1) p g
          (runAttemptSt (envs 0) p g s).stateAfter).trace.result = .ret b1 := h1
      rw [hdef, retryGoSt_three]
      simp only [h0']
      rw [retryGoSt_two]
      simp only [h1']
      simp
      and_intros <;> rfl
    · right; right
      refine ⟨e0, e1, rfl, rfl, ?_⟩
      have h1' : (runAttemptSt (envs 1) p g
          (runAttemptSt (envs 0) p g s).stateAfter).trace.result = .exc e1 := h1
      rw [hdef, retryGoSt_three]
      simp only [h0']
      rw [retryGoSt_two]
      simp only [h1']
      rw [retryGoSt_one]
      simp [runTraceSt_match_eta]
      and_intros <;> rfl

/-- C5 counterexample: the claim's retry-then-surface scenario — a dirty
working copy meeting a push that would fail transiently on the first two
attempts and succeed on the third — does not yield Published with exactly
3 underlying push attempts.  The first attempt's commit survives its push
failure, so the second attempt's `git status --porcelain` is empty and
`commit_push_safe` returns `True` there: exactly 1 push is ever executed,
only 2 attempts run, and the commit is left local and unpushed. -/
theorem push_retry_single_push_attempt :
    (commit_push_safe_st stEnvsPushRetry [] [] ⟨true, false⟩).result =
      .ret true ∧
    pushAttemptCountSt (commit_push_safe_st stEnvsPushRetry [] [] ⟨true, false⟩)
      = 1 ∧
    ¬(pushAttemptCountSt (commit_push_safe_st stEnvsPushRetry [] [] ⟨true, false⟩)
      = 3) ∧
    (commit_push_safe_st stEnvsPushRetry [] [] ⟨true, false⟩).attempts.length
      = 2 ∧
    (commit_push_safe_st stEnvsPushRetry [] [] ⟨true, false⟩).finalState =
      ⟨false, true⟩ := by
  decide

/-- C5 amended: the retry loop makes at most 3 attempts total with
exponential backoff sleeps of 1 then 2 time-units between attempts; a
returned value is always the last attempt's value, every earlier attempt
having failed; if all 3 attempts fail the final attempt's failure is
raised to the caller.  But because a transient push failure leaves the
commit in place, the next attempt finds a clean working tree and returns
`True` without pushing: two transient push failures followed by an
available push yield `True` after exactly 1 underlying push attempt, with
the commit left committed locally but unpushed — not 3 push attempts. -/
theorem retry_policy_stateful_spec :
    (∀ (envs : Nat → StepEnv) (p g : List String) (s : GitState),
      (commit_push_safe_st envs p g s).attempts.length ≤ 3 ∧
      (commit_push_safe_st envs p g s).sleeps =
        [1, 2].take ((commit_push_safe_st envs p g s).attempts.length - 1) ∧
      (∀ b, (commit_push_safe_st envs p g s).result = .ret b →
        ∃ t, (commit_push_safe_st envs p g s).attempts.getLast? = some t ∧
          t.result = .ret b) ∧
      (∀ e, (commit_push_safe_st envs p g s).result = .exc e →
        ∃ t0 t1 t2, (commit_push_safe_st envs p g s).attempts = [t0, t1, t2] ∧
          t2.result = .exc e ∧ (∃ e0, t0.result = .exc e0) ∧
          (∃ e1, t1.result = .exc e1))) ∧
    (commit_push_safe_st stEnvsPushRetry [] [] ⟨true, false⟩).result =
      .ret true ∧
    pushAttemptCountSt (commit_push_safe_st stEnvsPushRetry [] [] ⟨true, false⟩)
      = 1 ∧
    (commit_push_safe_st stEnvsPushRetry [] [] ⟨true, false⟩).finalState =
      ⟨false, true⟩ := by
  refine ⟨?_, by decide, by decide, by decide⟩
  intro envs p g s
  rcases commit_push_safe_st_cases envs p g s with ⟨b, h0, heq⟩ |
    ⟨e, b, h0, h1, heq⟩ | ⟨e0, e1, h0, h1, heq⟩
  · refine ⟨by rw [heq]; simp, by rw [heq]; rfl, ?_, ?_⟩
    · intro b' hb'
      have hb2 : b = b' := by rw [heq] at hb'; simpa using hb'
      subst hb2
      exact ⟨(stAttempt envs p g s 0).trace, by rw [heq]; rfl, h0⟩
    · intro e' he'
      rw [heq] at he'
      simp at he'
  · refine ⟨by rw [heq]; simp, by rw [heq]; rfl, ?_, ?_⟩
    · intro b' hb'
      have hb2 : b = b' := by rw [heq] at hb'; simpa using hb'
      subst hb2
      exact ⟨(stAttempt envs p g s 1).trace, by rw [heq]; rfl, h1⟩
    · intro e' he'
      rw [heq] at he'
      simp at he'
  · refine ⟨by rw [heq]; simp, by rw [heq]; rfl, ?_, ?_⟩
    · intro b' hb'
      rw [heq] at hb'
      exact ⟨(stAttempt envs p g s 2).trace, by rw [heq]; rfl, hb'⟩
    · intro e' he'
      rw [heq] at he'
      exact ⟨(stAttempt envs p g s 0).trace, (stAttempt envs p g s 1).trace,
        (stAttempt envs p g s 2).trace, by rw [heq], he', ⟨e0, h0⟩, ⟨e1, h1⟩⟩

/-- Witness for C5's amended claim: with the lock busy on every attempt,
all 3 attempts fail and the third attempt's lock-timeout failure
surfaces. -/
theorem retry_policy_stateful_spec_witness :
    (commit_push_safe_st (fun _ => stepEnvLockBusy) [] [] ⟨true, false⟩).result =
      .exc .lockTimeout ∧
    (∃ t0 t1 t2,
      (commit_push_safe_st (fun _ => stepEnvLockBusy) [] []
        ⟨true, false⟩).attempts = [t0, t1, t2] ∧
      t2.result = .exc .lockTimeout ∧
      (∃ e0, t0.result = .exc e0) ∧ (∃ e1, t1.result = .exc e1)) ∧
    (commit_push_safe_st (fun _ => stepEnvLockBusy) [] []
      ⟨true, false⟩).attempts.length ≤ 3 ∧
    (commit_push_safe_st (fun _ => stepEnvLockBusy) [] [] ⟨true, false⟩).sleeps =
      [1, 2] := by
  have h := retry_policy_stateful_spec.1 (fun _ => stepEnvLockBusy) [] []
    ⟨true, false⟩
  exact ⟨by decide, h.2.2.2 .lockTimeout (by decide), h.1, by decide⟩

/-- C3 counterexample: a clean working copy makes `commit_push_safe`
return the very same value `True` that a fully published cycle returns —
there is no distinct `NoChanges` outcome in the code's result. -/
theorem noChanges_not_distinct :
    (commit_push_safe (fun _ => envNoChanges) [] []).result = .ret true ∧
    (commit_push_safe (fun _ => envAllOk) [] []).result = .ret true ∧
    (commit_push_safe (fun _ => envNoChanges) [] []).result =
      (commit_push_safe (fun _ => envAllOk) [] []).result := by
  decide

/-- C3 amended: if the working copy has no differences, `commit_push_safe`
returns success (`True`) immediately from the first attempt — after
releasing the lock, without creating a commit, without pushing and
without sleeping — but this outcome is the plain boolean `True`, the same
value a published cycle returns, not a distinct `NoChanges` value. -/
theorem noChanges_immediate_no_commit (envs : Nat → AttemptEnv) (p g : List String)
    (h1 : (envs 0).lockOk = true) (h2 : (envs 0).statusRes = .ok)
    (h3 : (envs 0).statusEmpty = true) :
    (commit_push_safe envs p g).result = .ret true ∧
    (commit_push_safe envs p g).sleeps = [] ∧
    ∃ t, (commit_push_safe envs p g).attempts = [t] ∧
      t.committed = false ∧ t.pushAttempted = false ∧
      t.lockAcquired = true ∧ t.lockReleased = true := by
  have hA : runAttempt (envs 0) p g = ⟨.ret true, true, true, false, false, []⟩ := by
    simp [runAttempt, attemptBody, h1, h2, h3]
  rcases commit_push_safe_cases envs p g with ⟨b, h0, heq⟩ | ⟨e, b, h0, h1', heq⟩ |
    ⟨e0, e1, h0, h1', heq⟩
  · have hb : PubResult.ret true = .ret b := by rw [hA] at h0; exact h0
    cases hb
    rw [hA] at heq
    rw [heq]
    exact ⟨rfl, rfl, ⟨_, rfl, rfl, rfl, rfl, rfl⟩⟩
  · rw [hA] at h0
    simp at h0
  · rw [hA] at h0
    simp at h0

/-- Witness for C3's amended claim at the concrete no-changes
environment. -/
theorem noChanges_immediate_no_commit_witness :
    (commit_push_safe (fun _ => envNoChanges) [] []).result = .ret true ∧
    (commit_push_safe (fun _ => envNoChanges) [] []).sleeps = [] ∧
    ∃ t, (commit_push_safe (fun _ => envNoChanges) [] []).attempts = [t] ∧
      t.committed = false ∧ t.pushAttempted = false ∧
      t.lockAcquired = true ∧ t.lockReleased = true :=
  noChanges_immediate_no_commit (fun _ => envNoChanges) [] [] rfl rfl rfl

/-- C6 counterexample: a pull (upstream-integration) failure by timeout
makes the attempt fail at that very point — after the commit, without
ever reaching the push step — so it is not true that every failure of the
integration step is logged and followed by the push. -/
theorem pull_timeout_fails_attempt :
    (runAttempt envPullTimeout ["demo/example.txt"] []).pushAttempted = false ∧
    (runAttempt envPullTimeout ["demo/example.txt"] []).result =
      .exc (.cmdTimeout .pull) ∧
    (runAttempt envPullTimeout ["demo/example.txt"] []).committed = true := by
  decide

/-- C6 amended: within a single publish attempt, if the rebase-style pull
fails with a nonzero-exit command error (`CalledProcessError`), the
attempt logs it and proceeds to the push step, whose outcome determines
the attempt; a pull failure by timeout (`TimeoutExpired`), however, fails
the attempt at that point without pushing. -/
theorem pull_cpe_proceeds_to_push (env : AttemptEnv) (p g : List String)
    (h1 : env.lockOk = true) (h2 : env.statusRes = .ok) (h3 : env.statusEmpty = false)
    (h4 : env.addRes = .ok) (h5 : env.commitRes = .ok) (h6 : env.pullRes = .cpe) :
    (runAttempt env p g).pushAttempted = true ∧
    (runAttempt env p g).result =
      (match env.pushRes with
       | .ok => .ret true
       | .cpe => .exc (.cmdFailed .push)
       | .timeout => .exc (.cmdTimeout .push)) ∧
    (runAttempt env p g).committed = true := by
  rcases hp : env.pushRes <;>
    simp [runAttempt, attemptBody, h1, h2, h3, h4, h5, h6, hp]

/-- Environment of an attempt whose rebase pull exits nonzero but whose
push succeeds. -/
def envPullCpe : AttemptEnv := ⟨true, .ok, false, .ok, .ok, .cpe, .ok⟩

/-- Witness for C6's amended claim at a concrete environment. -/
theorem pull_cpe_proceeds_to_push_witness :
    envPullCpe.lockOk = true ∧ envPullCpe.statusRes = .ok ∧
    envPullCpe.statusEmpty = false ∧ envPullCpe.addRes = .ok ∧
    envPullCpe.commitRes = .ok ∧ envPullCpe.pullRes = .cpe ∧
    (runAttempt envPullCpe [] []).pushAttempted = true ∧
    (runAttempt envPullCpe [] []).result = .ret true :=
  ⟨rfl, rfl, rfl, rfl, rfl, rfl,
    (pull_cpe_proceeds_to_push envPullCpe [] [] rfl rfl rfl rfl rfl rfl).1,
    (pull_cpe_proceeds_to_push envPullCpe [] [] rfl rfl rfl rfl rfl rfl).2.1⟩

/-- C8 counterexample: the lock artifact `.git_lock` lives inside the
repository root, and a fully successful publish cycle stages it with
`git add .` (no ignore rule excludes it in the code), so the lock
artifact is part of what the cycle commits. -/
theorem lock_artifact_staged :
    LOCK_PATH ∈ (runAttempt envAllOk ["demo/example.txt"] []).staged ∧
    (runAttempt envAllOk ["demo/example.txt"] []).result = .ret true ∧
    (runAttempt envAllOk ["demo/example.txt"] []).committed = true := by
  decide

/-- C8 amended: the lock artifact lies at `.git_lock` directly inside the
repository root — inside, not outside, the tracked content area — and
every publish cycle that reaches the staging step stages it, unless an
externally supplied ignore rule covers it; the code itself installs no
such exclusion. -/
theorem lock_artifact_staged_when_not_ignored (env : AttemptEnv)
    (present ignored : List String) (h1 : env.lockOk = true)
    (h2 : env.statusRes = .ok) (h3 : env.statusEmpty = false)
    (h4 : env.addRes = .ok) (h5 : LOCK_PATH ∉ ignored) :
    LOCK_PATH ∈ (runAttempt env present ignored).staged := by
  have hstage : LOCK_PATH ∈ gitAddStages (LOCK_PATH :: present) ignored := by
    have hig : isUnderGitDir LOCK_PATH = false := by decide
    unfold gitAddStages
    rw [List.mem_filter]
    exact ⟨List.mem_cons_self _ _, by simp [hig, h5]⟩
  rcases hc : env.commitRes <;> rcases hl : env.pullRes <;> rcases hp : env.pushRes <;>
    simp [runAttempt, attemptBody, h1, h2, h3, h4, hc, hl, hp] <;>
    exact hstage

/-- Witness for C8's amended claim at a concrete environment. -/
theorem lock_artifact_staged_when_not_ignored_witness :
    envPushFail.lockOk = true ∧ envPushFail.statusRes = .ok ∧
    envPushFail.statusEmpty = false ∧ envPushFail.addRes = .ok ∧
    LOCK_PATH ∉ (["README.md"] : List String) ∧
    LOCK_PATH ∈ (runAttempt envPushFail ["demo/example.txt"] ["README.md"]).staged :=
  ⟨rfl, rfl, rfl, rfl, by decide,
    lock_artifact_staged_when_not_ignored envPushFail ["demo/example.txt"]
      ["README.md"] rfl rfl rfl rfl (by decide)⟩

/-- C9 counterexample: a timeout of a bootstrap step — the clone or a
subsequent git command — matches neither `except OSError` nor
`except subprocess.CalledProcessError`, so `ensure_repository` raises
instead of returning normally, aborting the module-level startup call. -/
theorem ensure_repository_timeout_raises :
    ensure_repository ⟨true, .ok, .ok, .timeout, .ok⟩ = .raised .timeoutExpired ∧
    ensure_repository ⟨false, .ok, .timeout, .ok, .ok⟩ = .raised .timeoutExpired := by
  decide

set_option maxRecDepth 4096 in
/-- C9 amended: clone, checkout and pull failures with a nonzero exit and
OS errors are logged and `ensure_repository` returns normally; a command
timeout, however, propagates — the only exception that can escape is
`TimeoutExpired`. -/
theorem ensure_repository_nonfatal : ∀ e : BootEnv,
    (e.helperWriteRes ≠ .timeout ∧ e.cloneRes ≠ .timeout ∧
      e.checkoutRes ≠ .timeout ∧ e.pullRes ≠ .timeout →
      ensure_repository e = .returned) ∧
    (ensure_repository e ≠ .returned →
      ensure_repository e = .raised .timeoutExpired) := by
  decide

/-- Witness for C9's amended claim: every step failing with a nonzero
exit or an OS error still returns normally. -/
theorem ensure_repository_nonfatal_witness :
    (BootRes.oserr ≠ BootRes.timeout ∧ BootRes.cpe ≠ BootRes.timeout ∧
      BootRes.cpe ≠ BootRes.timeout ∧ BootRes.oserr ≠ BootRes.timeout) ∧
    ensure_repository ⟨false, .oserr, .cpe, .cpe, .oserr⟩ = .returned :=
  ⟨by decide, (ensure_repository_nonfatal ⟨false, .oserr, .cpe, .cpe, .oserr⟩).1
    (by decide)⟩

/-! ## Claims about the mutation executor and the delete route -/

theorem fsGet_fsDel_same (fs : List (String × String)) (p : String) :
    fsGet (fsDel fs p) p = none := by
  induction fs with
  | nil => rfl
  | cons kv t ih =>
    obtain ⟨k, v⟩ := kv
    unfold fsDel
    by_cases hk : k = p
    · rw [if_pos hk]; exact ih
    · rw [if_neg hk]
      unfold fsGet
      rw [if_neg hk]
      exact ih

theorem fsGet_cons (k v : String) (t : List (String × String)) (q : String) :
    fsGet ((k, v) :: t) q = if k = q then some v else fsGet t q := rfl

theorem fsGet_fsDel_other (fs : List (String × String)) (p q : String)
    (h : q ≠ p) : fsGet (fsDel fs p) q = fsGet fs q := by
  induction fs with
  | nil => rfl
  | cons kv t ih =>
    obtain ⟨k, v⟩ := kv
    unfold fsDel
    by_cases hk : k = p
    · rw [if_pos hk, fsGet_cons, if_neg (fun hkq => h (by rw [← hkq, hk]))]
      exact ih
    · rw [if_neg hk, fsGet_cons, fsGet_cons]
      by_cases hkq : k = q
      · rw [if_pos hkq, if_pos hkq]
      · rw [if_neg hkq, if_neg hkq]
        exact ih

theorem fsGet_fsSet_same (fs : List (String × String)) (p c : String) :
    fsGet (fsSet fs p c) p = some c := by
  unfold fsSet fsGet
  rw [if_pos rfl]

theorem fsGet_fsSet_other (fs : List (String × String)) (p c q : String)
    (h : q ≠ p) : fsGet (fsSet fs p c) q = fsGet fs q := by
  unfold fsSet
  rw [fsGet_cons, if_neg (fun hpq => h hpq.symm)]
  exact fsGet_fsDel_other fs p q h

theorem withSuffixTmp_ne (p : String) : withSuffixTmp p ≠ p := by
  intro h
  have h2 := congrArg String.length h
  rw [withSuffixTmp, String.length_append,
    show (".tmp" : String).length = 4 from rfl] at h2
  omega

/-- C4: `write_file_safe` creates the target's parent directories, writes
the content to the temporary sibling `path + ".tmp"`, then renames it onto
the final path: an interruption between the temporary write and the
rename leaves the final path exactly as it was (in particular absent if it
was absent); after the rename the final path holds exactly the given
content, the temporary file is gone, and a pre-existing file at the final
path is simply overwritten. -/
theorem write_file_safe_atomic (st : FSState) (path content : String) :
    fsGet (write_file_safe st path content).mid.files (withSuffixTmp path) =
      some content ∧
    fsGet (write_file_safe st path content).mid.files path = fsGet st.files path ∧
    (fsGet st.files path = none →
      fsGet (write_file_safe st path content).mid.files path = none) ∧
    fsGet (write_file_safe st path content).final.files path = some content ∧
    fsGet (write_file_safe st path content).final.files (withSuffixTmp path) =
      none ∧
    (∀ d ∈ parentsOf path, d ∈ (write_file_safe st path content).mid.dirs ∧
      d ∈ (write_file_safe st path content).final.dirs) := by
  have hne : path ≠ withSuffixTmp path := fun h => withSuffixTmp_ne path h.symm
  have hmid : fsGet (write_file_safe st path content).mid.files path =
      fsGet st.files path :=
    fsGet_fsSet_other _ _ _ _ hne
  refine ⟨fsGet_fsSet_same _ _ _, hmid, fun h0 => hmid.trans h0,
    fsGet_fsSet_same _ _ _, ?_, ?_⟩
  · show fsGet (fsSet (fsDel (fsSet st.files (withSuffixTmp path) content)
      (withSuffixTmp path)) path content) (withSuffixTmp path) = none
    rw [fsGet_fsSet_other _ _ _ _ (withSuffixTmp_ne path)]
    exact fsGet_fsDel_same _ _
  · intro d hd
    exact ⟨List.mem_append_right _ hd, List.mem_append_right _ hd⟩

/-- Witness for C4 at a concrete state, path and content. -/
theorem write_file_safe_atomic_witness :
    fsGet (⟨[], []⟩ : FSState).files "demo/example.txt" = none ∧
    fsGet (write_file_safe ⟨[], []⟩ "demo/example.txt" "hello").mid.files
      "demo/example.txt" = none ∧
    fsGet (write_file_safe ⟨[], []⟩ "demo/example.txt" "hello").final.files
      "demo/example.txt" = some "hello" ∧
    "demo" ∈ (write_file_safe ⟨[], []⟩ "demo/example.txt" "hello").final.dirs := by
  have h := write_file_safe_atomic ⟨[], []⟩ "demo/example.txt" "hello"
  exact ⟨rfl, h.2.2.1 rfl, h.2.2.2.1, (h.2.2.2.2.2 "demo" (by decide)).2⟩

/-- C7: with safe mode enabled every delete request is answered 403
(`Forbidden`) with no state change — the file is neither removed nor is
any publish (commit/push) invoked; with safe mode disabled, a valid path
that does not exist is answered 404 with no state change, and a valid
existing path is removed and published. -/
theorem delete_route_spec (rootRes : List String) (fs : List (List String))
    (pathStr : String) :
    delete true rootRes fs pathStr = ⟨403, fs, false⟩ ∧
    (∀ fp, validate_path rootRes pathStr = .ok fp → fp ∉ fs →
      delete false rootRes fs pathStr = ⟨404, fs, false⟩) ∧
    (∀ fp, validate_path rootRes pathStr = .ok fp → fp ∈ fs →
      (delete false rootRes fs pathStr).code = 200 ∧
      fp ∉ (delete false rootRes fs pathStr).fs ∧
      (delete false rootRes fs pathStr).publishCalled = true) := by
  refine ⟨rfl, ?_, ?_⟩
  · intro fp hv hmem
    simp [delete, hv, hmem]
  · intro fp hv hmem
    refine ⟨?_, ?_, ?_⟩ <;> simp [delete, hv, hmem]

/-- Witness for C7 at a concrete root, filesystem and path. -/
theorem delete_route_spec_witness :
    validate_path ["repo"] "demo/example.txt" =
      .ok ["repo", "demo", "example.txt"] ∧
    delete true ["repo"] [["repo", "demo", "example.txt"]] "demo/example.txt" =
      ⟨403, [["repo", "demo", "example.txt"]], false⟩ ∧
    delete false ["repo"] [] "demo/example.txt" = ⟨404, [], false⟩ ∧
    (delete false ["repo"] [["repo", "demo", "example.txt"]]
      "demo/example.txt").code = 200 ∧
    ["repo", "demo", "example.txt"] ∉
      (delete false ["repo"] [["repo", "demo", "example.txt"]]
        "demo/example.txt").fs ∧
    (delete false ["repo"] [["repo", "demo", "example.txt"]]
      "demo/example.txt").publishCalled = true := by
  have h1 := delete_route_spec ["repo"] [["repo", "demo", "example.txt"]]
    "demo/example.txt"
  have h2 := delete_route_spec ["repo"] [] "demo/example.txt"
  have h3 := h1.2.2 ["repo", "demo", "example.txt"] (by decide) (by decide)
  exact ⟨by decide, h1.1,
    h2.2.1 ["repo", "demo", "example.txt"] (by decide) (by decide),
    h3.1, h3.2.1, h3.2.2⟩

end GitBridge
